import Mathlib

/-!
Verification of the timemap temporal item store (`src/timemap/db.py`).

The SQLite-backed store is shallowly embedded: a database is a record of
three tables (lists of rows), each store operation from `db.py` becomes a
pure function on that record, and SQL semantics (filters, `LIKE` prefix
patterns on ISO dates, `ORDER BY deleted_at DESC`, primary-key constraint
violations) are spelled out explicitly.  Python `datetime.date` values are
embedded as year/month/day triples ordered lexicographically, and
`date.fromisoformat` as a strict parser of canonical `YYYY-MM-DD` strings,
which is the only format the store reads or writes.
-/

/-- A calendar date: the embedding of Python's `datetime.date`. -/
structure Ymd where
  year : Nat
  month : Nat
  day : Nat
deriving DecidableEq, Repr

/-- Python `date` comparison is lexicographic on (year, month, day). -/
def ymdLeB (a b : Ymd) : Bool :=
  decide (a.year < b.year ∨ (a.year = b.year ∧
    (a.month < b.month ∨ (a.month = b.month ∧ a.day ≤ b.day))))

/-- Strict lexicographic comparison of dates. -/
def ymdLtB (a b : Ymd) : Bool :=
  decide (a.year < b.year ∨ (a.year = b.year ∧
    (a.month < b.month ∨ (a.month = b.month ∧ a.day < b.day))))

/-- Python `max(a, b)` keeps `b` exactly when `a < b`. -/
def ymdMax (a b : Ymd) : Ymd := if ymdLtB a b then b else a

/-- Python `min(a, b)` keeps `b` exactly when `b < a`. -/
def ymdMin (a b : Ymd) : Ymd := if ymdLtB b a then b else a

/-- Gregorian leap-year rule used by Python's `calendar` module. -/
def isLeap (y : Nat) : Bool := (y % 4 == 0 && y % 100 != 0) || y % 400 == 0

/-- `calendar.monthrange(y, m)[1]`: the number of days in the month. -/
def daysInMonth (y m : Nat) : Nat :=
  if m == 2 then (if isLeap y then 29 else 28)
  else if m == 4 || m == 6 || m == 9 || m == 11 then 30
  else 31

/-- `date(year, month, 1)`, the first day of the month. -/
def monthStart (year month : Nat) : Ymd := ⟨year, month, 1⟩

/-- `date(year, month, last_day)`, the last day of the month. -/
def monthEnd (year month : Nat) : Ymd := ⟨year, month, daysInMonth year month⟩

/-- The value of an ASCII decimal digit character, `none` otherwise. -/
def digitVal (c : Char) : Option Nat :=
  if c = '0' then some 0 else if c = '1' then some 1 else if c = '2' then some 2
  else if c = '3' then some 3 else if c = '4' then some 4 else if c = '5' then some 5
  else if c = '6' then some 6 else if c = '7' then some 7 else if c = '8' then some 8
  else if c = '9' then some 9 else none

/-- The ASCII character of a decimal digit (`n ≤ 9`). -/
def digitChar (n : Nat) : Char :=
  match n with
  | 0 => '0' | 1 => '1' | 2 => '2' | 3 => '3' | 4 => '4'
  | 5 => '5' | 6 => '6' | 7 => '7' | 8 => '8' | _ => '9'

/-- Two-digit zero-padded decimal rendering (Python `f"{n:02d}"` for `n ≤ 99`). -/
def pad2 (n : Nat) : List Char := [digitChar (n / 10), digitChar (n % 10)]

/-- Four-digit decimal rendering (Python `f"{n}"` for `1000 ≤ n ≤ 9999`). -/
def pad4 (n : Nat) : List Char :=
  [digitChar (n / 1000), digitChar (n / 100 % 10), digitChar (n / 10 % 10), digitChar (n % 10)]

/-- `date.fromisoformat` on the canonical `YYYY-MM-DD` strings the store
    reads and writes: ten characters, digits in the right places, dashes in
    between, and field values forming a valid Gregorian date.  Any other
    string raises `ValueError`, embedded as `none`. -/
def parseDate (s : String) : Option Ymd :=
  match s.toList with
  | [y1, y2, y3, y4, a, m1, m2, b, d1, d2] =>
    match digitVal y1, digitVal y2, digitVal y3, digitVal y4,
          digitVal m1, digitVal m2, digitVal d1, digitVal d2 with
    | some v1, some v2, some v3, some v4, some w1, some w2, some u1, some u2 =>
      if a = '-' ∧ b = '-' then
        if 1 ≤ v1 * 1000 + v2 * 100 + v3 * 10 + v4 ∧ 1 ≤ w1 * 10 + w2 ∧
           w1 * 10 + w2 ≤ 12 ∧ 1 ≤ u1 * 10 + u2 ∧
           u1 * 10 + u2 ≤ daysInMonth (v1 * 1000 + v2 * 100 + v3 * 10 + v4) (w1 * 10 + w2) then
          some ⟨v1 * 1000 + v2 * 100 + v3 * 10 + v4, w1 * 10 + w2, u1 * 10 + u2⟩
        else none
      else none
    | _, _, _, _, _, _, _, _ => none
  | _ => none

/-- `pattern LIKE 'prefix%'` on a stored text column: the pattern's literal
    part must be a prefix of the stored string. -/
def likeStarts (pat : List Char) (s : String) : Bool := pat.isPrefixOf s.toList

/-- The literal part of `f"{year}-{month:02d}-%"` from `get_marked_days`
    (a four-digit year rendered by the f-string). -/
def searchPattern (year month : Nat) : List Char :=
  pad4 year ++ '-' :: (pad2 month ++ ['-'])

/-- The literal part of `f"{year}-%"` from `get_year_stats`. -/
def yearPattern (year : Nat) : List Char := pad4 year ++ ['-']

/-- A row of the `items` table.  `is_done` is stored as INTEGER 0/1 and
    embedded as `Bool`; nullable TEXT columns are `Option String`. -/
structure Item where
  id : Nat
  date : String
  type : String
  content : String
  is_done : Bool
  finish_date : Option String
  «alias» : Option String
  mood : Option String
  deleted_at : Option String
deriving DecidableEq, Repr

/-- A row of the `tags` table. -/
structure Tag where
  id : Nat
  name : String
  color : String
deriving DecidableEq, Repr

/-- The whole database: `items`, `tags` and the `item_tags` association
    table (pairs `(item_id, tag_id)` with a composite primary key). -/
structure DB where
  items : List Item
  tags : List Tag
  item_tags : List (Nat × Nat)
deriving DecidableEq, Repr

/-- `INTEGER PRIMARY KEY` auto-assignment: one more than the largest rowid. -/
def maxId (l : List Nat) : Nat := l.foldr max 0

/-- `_cleanup_orphaned_tags`: `DELETE FROM tags WHERE id NOT IN
    (SELECT DISTINCT tag_id FROM item_tags)`. -/
def cleanupOrphanedTags (db : DB) : DB :=
  { db with tags := db.tags.filter (fun t => db.item_tags.any (fun p => p.2 == t.id)) }

/-- `add_item`: inserts a fresh row with `is_done = 0`, `finish_date = NULL`
    and (implicitly) `deleted_at = NULL`.  The caller-side "today" default
    for the date is passed explicitly. -/
def add_item (item_type content target_date : String)
    (al mo : Option String) (db : DB) : DB :=
  { db with items := db.items ++
      [{ id := maxId (db.items.map Item.id) + 1, date := target_date,
         type := item_type, content := content, is_done := false,
         finish_date := none, «alias» := al, mood := mo, deleted_at := none }] }

/-- `get_items_for_date`: the non-todo rows dated exactly `target_date` plus
    the active todos.  The source selects a 7-column projection of exactly
    these rows; the embedding returns the rows themselves.  SQL `NULL >= x`
    is not true, so a done todo with NULL `finish_date` is excluded. -/
def get_items_for_date (target_date : String) (db : DB) : List Item :=
  db.items.filter (fun i =>
      i.date == target_date && i.type != "todo" && i.deleted_at.isNone)
  ++ db.items.filter (fun i =>
      i.type == "todo" && decide (i.date ≤ target_date)
      && (!i.is_done ||
          (match i.finish_date with
           | some f => decide (target_date ≤ f)
           | none => false))
      && i.deleted_at.isNone)

/-- `toggle_todo_status`: read `is_done` of the row with this id; if 0 set
    it to 1 with `finish_date = action_date`, else set it to 0 and clear
    `finish_date`.  A missing id is a no-op. -/
def toggle_todo_status (item_id : Nat) (action_date : String) (db : DB) : DB :=
  match db.items.find? (fun i => i.id == item_id) with
  | none => db
  | some row =>
    if row.is_done then
      { db with items := db.items.map (fun i =>
          if i.id == item_id then { i with is_done := false, finish_date := none } else i) }
    else
      { db with items := db.items.map (fun i =>
          if i.id == item_id then { i with is_done := true, finish_date := some action_date } else i) }

/-- The `ORDER BY deleted_at DESC` key: trashed rows carry `some` timestamps,
    compared as TEXT. -/
def tsKey (i : Item) : String := i.deleted_at.getD ""

/-- The descending-timestamp ordering used by the trash queries. -/
def tsGe (a b : Item) : Prop := tsKey b ≤ tsKey a

instance : DecidableRel tsGe := fun a b => inferInstanceAs (Decidable (tsKey b ≤ tsKey a))

instance : IsTotal Item tsGe := ⟨fun a b => (le_total (tsKey b) (tsKey a)).imp id id⟩

instance : IsTrans Item tsGe := ⟨fun _ _ _ h1 h2 => le_trans h2 h1⟩

/-- `SELECT … WHERE deleted_at IS NOT NULL ORDER BY deleted_at DESC`. -/
def sortTrashedDesc (l : List Item) : List Item := l.insertionSort tsGe

/-- `soft_delete_item`: stamp `deleted_at = now`, list trashed rows newest
    first, and if more than 3 are trashed hard-delete the rest together with
    their `item_tags` rows, then garbage-collect orphaned tags. -/
def soft_delete_item (item_id : Nat) (now : String) (db : DB) : DB :=
  let items1 := db.items.map (fun i =>
    if i.id == item_id then { i with deleted_at := some now } else i)
  let deleted_rows := (sortTrashedDesc (items1.filter (fun i => i.deleted_at.isSome))).map Item.id
  if deleted_rows.length > 3 then
    let to_remove := deleted_rows.drop 3
    cleanupOrphanedTags
      { items := items1.filter (fun i => !(to_remove.contains i.id)),
        tags := db.tags,
        item_tags := db.item_tags.filter (fun p => !(to_remove.contains p.1)) }
  else
    { db with items := items1 }

/-- `recover_last_deleted`: take the trashed row with the newest
    `deleted_at` (the head of the descending sort), null its `deleted_at`
    and return `true`; return `false` on an empty trash. -/
def recover_last_deleted (db : DB) : Bool × DB :=
  match (sortTrashedDesc (db.items.filter (fun i => i.deleted_at.isSome))).head? with
  | none => (false, db)
  | some row =>
    (true, { db with items := db.items.map (fun i =>
        if i.id == row.id then { i with deleted_at := none } else i) })

/-- `empty_trash`: delete the `item_tags` rows of all trashed items, delete
    the trashed items, then garbage-collect orphaned tags. -/
def empty_trash (db : DB) : DB :=
  let trashedIds := (db.items.filter (fun i => i.deleted_at.isSome)).map Item.id
  cleanupOrphanedTags
    { items := db.items.filter (fun i => i.deleted_at.isNone),
      tags := db.tags,
      item_tags := db.item_tags.filter (fun p => !(trashedIds.contains p.1)) }

/-- `delete_item`: hard delete of one row and its associations, then
    garbage-collect orphaned tags. -/
def delete_item (item_id : Nat) (db : DB) : DB :=
  cleanupOrphanedTags
    { items := db.items.filter (fun i => i.id != item_id),
      tags := db.tags,
      item_tags := db.item_tags.filter (fun p => p.1 != item_id) }

/-- Python `str.strip()` with no argument: drop ASCII whitespace from both
    ends (the tag names the TUI passes are ASCII). -/
def isSpaceChar (c : Char) : Bool :=
  c = ' ' || c = '\t' || c = '\n' || c = '\r' || c = '\x0b' || c = '\x0c'

/-- `tag_name.strip()`. -/
def pyStrip (s : String) : String :=
  ⟨((s.toList.dropWhile isSpaceChar).reverse.dropWhile isSpaceChar).reverse⟩

/-- `INSERT INTO item_tags (item_id, tag_id) VALUES (?, ?)`: the pair
    `(item_id, tag_id)` is the composite primary key, so inserting a pair
    already present raises an IntegrityError, embedded as `Except.error`. -/
def insertItemTag (item_id tag_id : Nat) (its : List (Nat × Nat)) :
    Except Unit (List (Nat × Nat)) :=
  if its.contains (item_id, tag_id) then .error () else .ok (its ++ [(item_id, tag_id)])

/-- One iteration of the `update_item_tags` loop over `(tags, item_tags)`:
    strip the name, skip it if empty, find-or-create the tag row (the
    randomly picked palette color is abstracted by the `choose` oracle),
    and insert the association. -/
def applyTagName (item_id : Nat) (choose : String → String)
    (st : List Tag × List (Nat × Nat)) (tag_name : String) :
    Except Unit (List Tag × List (Nat × Nat)) :=
  let clean_tag := pyStrip tag_name
  if clean_tag = "" then .ok st
  else
    match st.1.find? (fun t => t.name == clean_tag) with
    | some row => (insertItemTag item_id row.id st.2).map (fun its => (st.1, its))
    | none =>
      let tid := maxId (st.1.map Tag.id) + 1
      (insertItemTag item_id tid st.2).map (fun its =>
        (st.1 ++ [{ id := tid, name := clean_tag, color := choose clean_tag }], its))

/-- The `for tag_name in tags_list` loop; the first constraint violation
    aborts the whole operation. -/
def foldTagNames (item_id : Nat) (choose : String → String) :
    List String → List Tag × List (Nat × Nat) → Except Unit (List Tag × List (Nat × Nat))
  | [], st => .ok st
  | n :: rest, st =>
    match applyTagName item_id choose st n with
    | .error e => .error e
    | .ok st' => foldTagNames item_id choose rest st'

/-- `update_item_tags`: delete every association of the item, run the loop,
    then garbage-collect orphaned tags and commit.  An uncommitted
    exception rolls the transaction back, so on `error` the stored state is
    unchanged. -/
def update_item_tags (item_id : Nat) (tags_list : List String)
    (choose : String → String) (db : DB) : Except Unit DB :=
  let its0 := db.item_tags.filter (fun p => p.1 != item_id)
  match foldTagNames item_id choose tags_list (db.tags, its0) with
  | .error e => .error e
  | .ok st => .ok (cleanupOrphanedTags
      { items := db.items, tags := st.1, item_tags := st.2 })

/-- The days one `todo` row contributes in `get_marked_days`: skip the row
    on any `ValueError`; skip it when created after the month's end or
    finished before its start; otherwise clamp the active interval
    `[date, finish_date]` (or `[date, ∞)` while not done) to the month and
    walk it one day at a time.  Both clamped endpoints lie inside the
    month, so the walked days are exactly `start.day .. end.day`. -/
def todoDays (year month : Nat) (i : Item) : List Nat :=
  match parseDate i.date with
  | none => []
  | some cd =>
    if ymdLtB (monthEnd year month) cd then []
    else
      let fdRes : Option (Option Ymd) :=
        match i.is_done, i.finish_date with
        | true, some f =>
          if f = "" then some none
          else match parseDate f with
            | some fd => some (some fd)
            | none => none
        | _, _ => some none
      match fdRes with
      | none => []
      | some fdOpt =>
        if (match fdOpt with
            | some fd => ymdLtB fd (monthStart year month)
            | none => false) then []
        else
          let start := ymdMax cd (monthStart year month)
          let e := match fdOpt with
            | some fd => ymdMin fd (monthEnd year month)
            | none => monthEnd year month
          if ymdLeB start e then List.range' start.day (e.day + 1 - start.day) else []

/-- `get_marked_days`: days of non-todo rows matching the month's `LIKE`
    pattern (note: no `deleted_at` filter in either query) united with the
    interval-overlap days of every `todo` row.  The Python `set` is
    embedded as a list read up to membership. -/
def get_marked_days (year month : Nat) (db : DB) : List Nat :=
  ((db.items.filter (fun i =>
      i.type != "todo" && likeStarts (searchPattern year month) i.date)).filterMap
    (fun i => (parseDate i.date).map Ymd.day))
  ++ (db.items.filter (fun i => i.type == "todo")).flatMap (todoDays year month)

/-- The dict returned by `get_year_stats`. -/
structure YearStats where
  diary : List Nat
  note : List Nat
  file : List Nat
  todo_created : List Nat
  todo_done : List Nat
  total_todos : Nat
  finished_todos : Nat
deriving DecidableEq, Repr

/-- `stats[key][month_idx] += 1` on a 12-entry list. -/
def bump (l : List Nat) (i : Nat) : List Nat := l.set i (l.getD i 0 + 1)

/-- One row of the first `get_year_stats` query: bucket the row by the
    month of its own `date`, skipping rows whose date fails to parse. -/
def yearStatsStep (s : YearStats) (row : Item) : YearStats :=
  match parseDate row.date with
  | none => s
  | some d =>
    let idx := d.month - 1
    if row.type = "diary" then { s with diary := bump s.diary idx }
    else if row.type = "note" then { s with note := bump s.note idx }
    else if row.type = "file" then { s with file := bump s.file idx }
    else if row.type = "todo" then
      { s with todo_created := bump s.todo_created idx, total_todos := s.total_todos + 1 }
    else s

/-- One row of the second `get_year_stats` query: bucket a finished todo by
    the month of its `finish_date`. -/
def yearDoneStep (s : YearStats) (fstr : String) : YearStats :=
  match parseDate fstr with
  | none => s
  | some d =>
    { s with todo_done := bump s.todo_done (d.month - 1),
             finished_todos := s.finished_todos + 1 }

/-- `get_year_stats`: first query takes non-trashed rows whose `date`
    matches `f"{year}-%"`, second takes non-trashed done todos whose
    `finish_date` matches it (`NULL LIKE p` is not true). -/
def get_year_stats (year : Nat) (db : DB) : YearStats :=
  let init : YearStats :=
    ⟨List.replicate 12 0, List.replicate 12 0, List.replicate 12 0,
     List.replicate 12 0, List.replicate 12 0, 0, 0⟩
  let rows1 := db.items.filter (fun i =>
    likeStarts (yearPattern year) i.date && i.deleted_at.isNone)
  let s1 := rows1.foldl yearStatsStep init
  let rows2 := db.items.filter (fun i =>
    i.type == "todo" && i.is_done
    && (match i.finish_date with
        | some f => likeStarts (yearPattern year) f
        | none => false)
    && i.deleted_at.isNone)
  rows2.foldl (fun s i => yearDoneStep s (i.finish_date.getD "")) s1

/-! ### Helper lemmas: lexicographic dates and digit rendering -/

theorem ymdLeB_iff {a b : Ymd} : ymdLeB a b = true ↔
    (a.year < b.year ∨ (a.year = b.year ∧
      (a.month < b.month ∨ (a.month = b.month ∧ a.day ≤ b.day)))) := by
  simp [ymdLeB]

theorem ymdLtB_iff {a b : Ymd} : ymdLtB a b = true ↔
    (a.year < b.year ∨ (a.year = b.year ∧
      (a.month < b.month ∨ (a.month = b.month ∧ a.day < b.day)))) := by
  simp [ymdLtB]

theorem le_ymdMax_right (a b : Ymd) : ymdLeB b (ymdMax a b) = true := by
  unfold ymdMax
  split
  · rw [ymdLeB_iff]; omega
  · next h =>
    rw [ymdLtB_iff] at h
    rw [ymdLeB_iff]
    rcases a with ⟨ay, am, ad⟩
    rcases b with ⟨by_, bm, bd⟩
    simp only [not_or, not_and, not_lt] at h
    simp only
    omega

theorem ymdMin_le_right (a b : Ymd) : ymdLeB (ymdMin a b) b = true := by
  unfold ymdMin
  split
  · rw [ymdLeB_iff]; omega
  · next h =>
    rw [ymdLtB_iff] at h
    rw [ymdLeB_iff]
    rcases a with ⟨ay, am, ad⟩
    rcases b with ⟨by_, bm, bd⟩
    simp only [not_or, not_and, not_lt] at h
    simp only
    omega

theorem ymdMax_cases (a b : Ymd) : ymdMax a b = a ∨ ymdMax a b = b := by
  unfold ymdMax; split <;> simp

/-- A date between the first and last day of a month lies in that month. -/
theorem ymd_in_month {year month : Nat} {x : Ymd}
    (h1 : ymdLeB (monthStart year month) x = true)
    (h2 : ymdLeB x (monthEnd year month) = true) :
    x.year = year ∧ x.month = month ∧ 1 ≤ x.day ∧ x.day ≤ daysInMonth year month := by
  rw [ymdLeB_iff] at h1 h2
  simp only [monthStart, monthEnd] at h1 h2
  omega

theorem digitVal_eq_some {c : Char} {k : Nat} (h : digitVal c = some k) :
    k < 10 ∧ c = digitChar k := by
  unfold digitVal at h
  split_ifs at h with h0 h1 h2 h3 h4 h5 h6 h7 h8 h9
  all_goals (injection h with h'; try (subst h'; subst_vars; exact ⟨by omega, rfl⟩))

theorem digitChar_inj : ∀ a < 10, ∀ b < 10, digitChar a = digitChar b → a = b := by decide

/-- A successful `date.fromisoformat` pins the string down to the canonical
    rendering of its value, with all the field bounds. -/
theorem parseDate_inv {s : String} {t : Ymd} (h : parseDate s = some t) :
    s.toList = pad4 t.year ++ '-' :: (pad2 t.month ++ '-' :: pad2 t.day) ∧
    1 ≤ t.year ∧ t.year ≤ 9999 ∧ 1 ≤ t.month ∧ t.month ≤ 12 ∧
    1 ≤ t.day ∧ t.day ≤ daysInMonth t.year t.month := by
  unfold parseDate at h
  split at h
  case _ y1 y2 y3 y4 a m1 m2 b d1 d2 hs =>
    split at h
    case _ v1 v2 v3 v4 w1 w2 u1 u2 e1 e2 e3 e4 e5 e6 e7 e8 =>
      split at h
      case isFalse => cases h
      case isTrue hd =>
        split at h
        case isFalse => cases h
        case isTrue hb =>
          obtain ⟨hv1, hc1⟩ := digitVal_eq_some e1
          obtain ⟨hv2, hc2⟩ := digitVal_eq_some e2
          obtain ⟨hv3, hc3⟩ := digitVal_eq_some e3
          obtain ⟨hv4, hc4⟩ := digitVal_eq_some e4
          obtain ⟨hw1, hc5⟩ := digitVal_eq_some e5
          obtain ⟨hw2, hc6⟩ := digitVal_eq_some e6
          obtain ⟨hu1, hc7⟩ := digitVal_eq_some e7
          obtain ⟨hu2, hc8⟩ := digitVal_eq_some e8
          obtain ⟨b1, b2, b3, b4, b5⟩ := hb
          have ht : t = ⟨v1 * 1000 + v2 * 100 + v3 * 10 + v4,
              w1 * 10 + w2, u1 * 10 + u2⟩ := by
            injection h with hh
            exact hh.symm
          subst ht
          dsimp only
          refine ⟨?_, by omega, by omega, by omega, by omega, by omega, b5⟩
          rw [hs]
          simp only [pad4, pad2, List.cons_append, List.nil_append]
          have q1 : (v1 * 1000 + v2 * 100 + v3 * 10 + v4) / 1000 = v1 := by omega
          have q2 : (v1 * 1000 + v2 * 100 + v3 * 10 + v4) / 100 % 10 = v2 := by omega
          have q3 : (v1 * 1000 + v2 * 100 + v3 * 10 + v4) / 10 % 10 = v3 := by omega
          have q4 : (v1 * 1000 + v2 * 100 + v3 * 10 + v4) % 10 = v4 := by omega
          have q5 : (w1 * 10 + w2) / 10 = w1 := by omega
          have q6 : (w1 * 10 + w2) % 10 = w2 := by omega
          have q7 : (u1 * 10 + u2) / 10 = u1 := by omega
          have q8 : (u1 * 10 + u2) % 10 = u2 := by omega
          rw [q1, q2, q3, q4, q5, q6, q7, q8]
          rw [hc1, hc2, hc3, hc4, hc5, hc6, hc7, hc8, hd.1, hd.2]
    case _ => cases h
  case _ => cases h

/-- For a string that parses, matching the `f"{year}-{month:02d}-%"` pattern
    is exactly having that year and month (four-digit years, two-digit
    month field). -/
theorem likeStarts_searchPattern {s : String} {t : Ymd} (hp : parseDate s = some t)
    {year month : Nat} (hy2 : year ≤ 9999) (hm : month ≤ 99) :
    likeStarts (searchPattern year month) s = true ↔ (t.year = year ∧ t.month = month) := by
  obtain ⟨hs, b1, b2, b3, b4, b5, b6⟩ := parseDate_inv hp
  unfold likeStarts searchPattern
  rw [hs, List.isPrefixOf_iff_prefix]
  simp only [pad4, pad2, List.cons_append, List.nil_append, List.cons_prefix_cons,
    List.nil_prefix, eq_self_iff_true, true_and, and_true]
  constructor
  · rintro ⟨e1, e2, e3, e4, e5, e6⟩
    have r1 := digitChar_inj _ (by omega) _ (by omega) e1
    have r2 := digitChar_inj _ (by omega) _ (by omega) e2
    have r3 := digitChar_inj _ (by omega) _ (by omega) e3
    have r4 := digitChar_inj _ (by omega) _ (by omega) e4
    have r5 := digitChar_inj _ (by omega) _ (by omega) e5
    have r6 := digitChar_inj _ (by omega) _ (by omega) e6
    omega
  · rintro ⟨rfl, rfl⟩
    exact ⟨rfl, rfl, rfl, rfl, rfl, rfl⟩

/-- For a string that parses, matching the `f"{year}-%"` pattern is exactly
    having that year (four-digit years). -/
theorem likeStarts_yearPattern {s : String} {t : Ymd} (hp : parseDate s = some t)
    {year : Nat} (hy2 : year ≤ 9999) :
    likeStarts (yearPattern year) s = true ↔ t.year = year := by
  obtain ⟨hs, b1, b2, b3, b4, b5, b6⟩ := parseDate_inv hp
  unfold likeStarts yearPattern
  rw [hs, List.isPrefixOf_iff_prefix]
  simp only [pad4, pad2, List.cons_append, List.nil_append, List.cons_prefix_cons,
    List.nil_prefix, eq_self_iff_true, true_and, and_true]
  constructor
  · rintro ⟨e1, e2, e3, e4⟩
    have r1 := digitChar_inj _ (by omega) _ (by omega) e1
    have r2 := digitChar_inj _ (by omega) _ (by omega) e2
    have r3 := digitChar_inj _ (by omega) _ (by omega) e3
    have r4 := digitChar_inj _ (by omega) _ (by omega) e4
    omega
  · rintro rfl
    exact ⟨rfl, rfl, rfl, rfl⟩

/-! ### Helper lemmas: rows with unique primary keys -/

/-- With unique ids, `SELECT … WHERE id = ?` finds exactly the member row. -/
theorem find?_id_of_mem {l : List Item} (h : (l.map Item.id).Nodup)
    {i : Item} (hi : i ∈ l) : l.find? (fun j => j.id == i.id) = some i := by
  induction l with
  | nil => cases hi
  | cons a t ih =>
    simp only [List.map_cons, List.nodup_cons, List.mem_map] at h
    rcases List.mem_cons.mp hi with rfl | hmem
    · simp [List.find?_cons]
    · have hne : (a.id == i.id) = false := by
        simp only [beq_eq_false_iff_ne, ne_eq]
        intro he
        exact h.1 ⟨i, hmem, he.symm⟩
      rw [List.find?_cons, hne]
      exact ih h.2 hmem

/-- Two member rows with the same id are the same row. -/
theorem eq_of_mem_of_id_eq {l : List Item} (h : (l.map Item.id).Nodup)
    {a b : Item} (ha : a ∈ l) (hb : b ∈ l) (hid : a.id = b.id) : a = b := by
  have h1 := find?_id_of_mem h ha
  have h2 := find?_id_of_mem h hb
  rw [hid] at h1
  rw [h1] at h2
  injection h2

/-- An `UPDATE … WHERE id = ?` that leaves ids alone leaves the id column
    unchanged. -/
theorem map_update_ids (l : List Item) (n : Nat) (g : Item → Item)
    (hg : ∀ j, (g j).id = j.id) :
    (l.map (fun j => if j.id == n then g j else j)).map Item.id = l.map Item.id := by
  rw [List.map_map]
  apply List.map_congr_left
  intro j _
  simp only [Function.comp_apply]
  split
  · exact hg j
  · rfl

/-- `SELECT … WHERE id = ?` after such an `UPDATE` returns the updated row. -/
theorem find?_map_update (l : List Item) (n : Nat) (g : Item → Item)
    (hg : ∀ j, (g j).id = j.id) :
    (l.map (fun j => if j.id == n then g j else j)).find? (fun i => i.id == n)
      = (l.find? (fun i => i.id == n)).map (fun j => if j.id == n then g j else j) := by
  rw [List.find?_map]
  congr 1
  congr 1
  funext j
  simp only [Function.comp_apply]
  split
  · next h => simp only [hg j, h]
  · rfl

/-! ### C4: get_items_for_date returns exactly the dated non-todos and active todos -/

/-- The spec's description of which items `get_items_for(D)` returns:
    non-todo, non-deleted items dated exactly `D`, and non-deleted todos
    with `date <= D` and (`is_done = false` or `finish_date >= D`). -/
def specItemVisibleOn (D : String) (i : Item) : Prop :=
  (i.type ≠ "todo" ∧ i.deleted_at = none ∧ i.date = D) ∨
  (i.type = "todo" ∧ i.deleted_at = none ∧ i.date ≤ D ∧
    (i.is_done = false ∨ ∃ f, i.finish_date = some f ∧ D ≤ f))

/-- C4: `get_items_for_date D` returns exactly the non-todo non-deleted
    items dated `D` together with the todos active on `D` by the
    active-todo rule, and never a trashed item. -/
theorem claim4_get_items_for_date (D : String) (db : DB) (i : Item) :
    i ∈ get_items_for_date D db ↔ i ∈ db.items ∧ specItemVisibleOn D i := by
  obtain ⟨iid, idate, ity, icontent, isd, fin, al, mo, del⟩ := i
  simp only [get_items_for_date, specItemVisibleOn, List.mem_append, List.mem_filter,
    Bool.and_eq_true, beq_iff_eq, bne_iff_ne, ne_eq, Option.isNone_iff_eq_none,
    decide_eq_true_eq, Bool.or_eq_true, Bool.not_eq_true']
  cases fin <;> cases isd <;> simp_all <;> tauto

/-! ### C7: is_done iff finish_date, established by add_item, preserved by toggle -/

/-- The todo-state invariant: `finish_date` is non-null iff `is_done`. -/
def todoInv (i : Item) : Prop := i.is_done = true ↔ i.finish_date ≠ none

/-- C7: `add_item` establishes the invariant on the new row (it inserts
    `is_done = 0`, `finish_date = NULL`) and `toggle_todo_status` preserves
    it on both branches (done rows get a non-null `finish_date`, reverted
    rows a null one). -/
theorem claim7_todo_invariant (ty content target_date : String)
    (al mo : Option String) (item_id : Nat) (action_date : String) (db : DB)
    (h : ∀ i ∈ db.items, todoInv i) :
    (∀ i ∈ (add_item ty content target_date al mo db).items, todoInv i) ∧
    (∀ i ∈ (toggle_todo_status item_id action_date db).items, todoInv i) := by
  constructor
  · intro i hi
    rcases List.mem_append.mp hi with hi | hi
    · exact h i hi
    · rcases List.mem_singleton.mp hi with rfl
      simp [todoInv]
  · intro i hi
    unfold toggle_todo_status at hi
    split at hi
    · exact h i hi
    · split at hi <;>
      · rcases List.mem_map.mp hi with ⟨j, hj, rfl⟩
        split
        · simp [todoInv]
        · exact h j hj

/-- Witness for C7 at a concrete store. -/
theorem claim7_todo_invariant_witness :
    (∀ i ∈ (add_item "note" "Buy milk" "2024-03-01" none none
        ⟨[⟨1, "2024-01-05", "todo", "t", false, none, none, none, none⟩], [], []⟩).items, todoInv i) ∧
    (∀ i ∈ (toggle_todo_status 1 "2024-01-20"
        ⟨[⟨1, "2024-01-05", "todo", "t", false, none, none, none, none⟩], [], []⟩).items, todoInv i) :=
  claim7_todo_invariant "note" "Buy milk" "2024-03-01" none none 1 "2024-01-20"
    ⟨[⟨1, "2024-01-05", "todo", "t", false, none, none, none, none⟩], [], []⟩
    (by intro i hi; rcases List.mem_singleton.mp hi with rfl; simp [todoInv])

/-! ### C10: duplicate names after trimming make update_item_tags raise -/

/-- After the initial `DELETE FROM item_tags WHERE item_id = ?`, no
    association of this item remains, so no pair `(item_id, _)` is found. -/
theorem contains_filtered_false (db : DB) (item_id tid : Nat) :
    (db.item_tags.filter (fun p => p.1 != item_id)).contains (item_id, tid) = false := by
  rw [← Bool.not_eq_true, List.contains_iff_exists_mem_beq]
  rintro ⟨p, hp, hbeq⟩
  obtain rfl : (item_id, tid) = p := eq_of_beq hbeq
  have := (List.mem_filter.mp hp).2
  simp at this

/-- A fresh association pair inserts cleanly. -/
theorem insertItemTag_of_not_mem {item_id tid : Nat} {its : List (Nat × Nat)}
    (h : its.contains (item_id, tid) = false) :
    insertItemTag item_id tid its = .ok (its ++ [(item_id, tid)]) := by
  unfold insertItemTag
  rw [h]
  simp

/-- Re-inserting a present association pair violates the primary key. -/
theorem insertItemTag_of_mem {item_id tid : Nat} {its : List (Nat × Nat)}
    (h : (item_id, tid) ∈ its) :
    insertItemTag item_id tid its = .error () := by
  have hc : its.contains (item_id, tid) = true :=
    List.contains_iff_exists_mem_beq.mpr ⟨_, h, by simp⟩
  unfold insertItemTag
  rw [hc]
  simp

/-- C10: a names list whose entries coincide after stripping — here
    `["a", " a "]` — makes the second association insert hit the
    `(item_id, tag_id)` primary key and the operation fails with a
    constraint error instead of deduplicating. -/
theorem claim10_duplicate_tags_error (item_id : Nat) (choose : String → String) (db : DB) :
    update_item_tags item_id ["a", " a "] choose db = .error () := by
  have hstrip1 : pyStrip "a" = "a" := rfl
  have hstrip2 : pyStrip " a " = "a" := rfl
  have hne : ¬("a" = "") := by decide
  simp only [update_item_tags, foldTagNames, applyTagName, hstrip1, hstrip2, if_neg hne]
  rcases hfind : db.tags.find? (fun t => t.name == "a") with _ | row
  · -- tag "a" does not exist yet: it is created, then the second insert collides
    rw [insertItemTag_of_not_mem (contains_filtered_false db item_id _)]
    simp only [Except.map, List.find?_append, hfind, Option.none_or]
    have hfind2 : List.find? (fun t => t.name == "a")
        [(⟨maxId (db.tags.map Tag.id) + 1, "a", choose "a"⟩ : Tag)]
        = some ⟨maxId (db.tags.map Tag.id) + 1, "a", choose "a"⟩ := by
      simp [List.find?_cons]
    rw [hfind2]
    dsimp only
    rw [insertItemTag_of_mem (List.mem_append_right _ (List.mem_singleton_self _))]
  · -- tag "a" already exists: the same tag id is found twice
    simp only [hfind]
    rw [insertItemTag_of_not_mem (contains_filtered_false db item_id _)]
    simp only [Except.map, hfind]
    rw [insertItemTag_of_mem (List.mem_append_right _ (List.mem_singleton_self _))]

/-! ### C1: get_marked_days does NOT filter out trashed non-todo items -/

/-- A trashed (soft-deleted) note dated 2024-01-05. -/
def c1Item : Item :=
  ⟨1, "2024-01-05", "note", "milk", false, none, none, none, some "2024-02-01T00:00:00"⟩

/-- A store whose only item is the trashed note. -/
def c1DB : DB := ⟨[c1Item], [], []⟩

/-- C1 counterexample: the store holds exactly one item, a non-todo with
    non-null `deleted_at`, and yet its day 5 appears in
    `get_marked_days 2024 1` — the non-todo query of `get_marked_days` has
    no `deleted_at IS NULL` filter, refuting the claim. -/
theorem claim1_counterexample :
    c1DB.items = [c1Item] ∧ c1Item.type = "note" ∧
    c1Item.deleted_at = some "2024-02-01T00:00:00" ∧
    get_marked_days 2024 1 c1DB = [5] :=
  ⟨rfl, rfl, rfl, by decide⟩

/-- C1 amended: a non-todo item matching the month pattern contributes its
    day to `marked_days` regardless of `deleted_at` — in particular even
    when it is trashed. -/
theorem claim1_amended (db : DB) (year month : Nat) (i : Item) (t : Ymd)
    (hmem : i ∈ db.items) (hty : i.type ≠ "todo")
    (hdel : i.deleted_at ≠ none)
    (hlike : likeStarts (searchPattern year month) i.date = true)
    (hp : parseDate i.date = some t) :
    t.day ∈ get_marked_days year month db := by
  unfold get_marked_days
  apply List.mem_append_left
  apply List.mem_filterMap.mpr
  refine ⟨i, List.mem_filter.mpr ⟨hmem, ?_⟩, ?_⟩
  · simp [Bool.and_eq_true, bne_iff_ne, hty, hlike]
  · rw [hp]; rfl

/-- Witness for the amended C1 at the concrete store. -/
theorem claim1_amended_witness : (5 : Nat) ∈ get_marked_days 2024 1 c1DB :=
  claim1_amended c1DB 2024 1 c1Item ⟨2024, 1, 5⟩ (by decide) (by decide)
    (by decide) (by decide) (by decide)

/-! ### C3: after soft_delete at most 3 items are trashed -/

/-- C3: whatever the prior state, a `soft_delete_item` call leaves at most
    3 rows with non-null `deleted_at`: the retention step keeps the 3 most
    recently trashed rows and hard-deletes the rest. -/
theorem claim3_trash_bound (item_id : Nat) (now : String) (db : DB)
    (h : (db.items.map Item.id).Nodup) :
    (soft_delete_item item_id now db).items.countP (fun i => i.deleted_at.isSome) ≤ 3 := by
  unfold soft_delete_item
  set items1 := db.items.map (fun i =>
    if i.id == item_id then { i with deleted_at := some now } else i) with hitems1
  set deleted_rows :=
    (sortTrashedDesc (items1.filter (fun i => i.deleted_at.isSome))).map Item.id with hdr
  have hids : items1.map Item.id = db.items.map Item.id :=
    map_update_ids db.items item_id _ (fun j => rfl)
  have hnd1 : (items1.map Item.id).Nodup := by rw [hids]; exact h
  by_cases hgt : deleted_rows.length > 3
  · rw [if_pos hgt]
    show (items1.filter (fun i => !((deleted_rows.drop 3).contains i.id))).countP
        (fun i => i.deleted_at.isSome) ≤ 3
    rw [List.countP_eq_length_filter, List.filter_filter]
    set T := items1.filter
      (fun a => a.deleted_at.isSome && !((deleted_rows.drop 3).contains a.id)) with hT
    have hTsub : T.Sublist items1 := List.filter_sublist _
    have hTnd : (T.map Item.id).Nodup := (hTsub.map Item.id).nodup hnd1
    have hsubset : T.map Item.id ⊆ deleted_rows.take 3 := by
      intro x hx
      rcases List.mem_map.mp hx with ⟨i, hiT, rfl⟩
      obtain ⟨hi1, hcond⟩ := List.mem_filter.mp hiT
      rw [Bool.and_eq_true] at hcond
      obtain ⟨hsome, hnotrem⟩ := hcond
      have hin_dr : i.id ∈ deleted_rows := by
        rw [hdr]
        refine List.mem_map.mpr ⟨i, ?_, rfl⟩
        exact (List.mem_insertionSort tsGe).mpr (List.mem_filter.mpr ⟨hi1, hsome⟩)
      have hsplit : deleted_rows = deleted_rows.take 3 ++ deleted_rows.drop 3 :=
        (List.take_append_drop 3 deleted_rows).symm
      rw [hsplit] at hin_dr
      rcases List.mem_append.mp hin_dr with htake | hdrop
      · exact htake
      · exfalso
        have hc : (deleted_rows.drop 3).contains i.id = true :=
          List.contains_iff_exists_mem_beq.mpr ⟨_, hdrop, by simp⟩
        rw [hc] at hnotrem
        simp at hnotrem
    calc T.length = (T.map Item.id).length := (List.length_map T Item.id).symm
      _ ≤ (deleted_rows.take 3).length := (hTnd.subperm hsubset).length_le
      _ ≤ 3 := by rw [List.length_take]; omega
  · rw [if_neg hgt]
    show items1.countP (fun i => i.deleted_at.isSome) ≤ 3
    have hcnt : items1.countP (fun i => i.deleted_at.isSome) = deleted_rows.length := by
      rw [hdr, List.length_map, List.countP_eq_length_filter]
      exact ((List.perm_insertionSort tsGe _).length_eq).symm
    omega

/-- Witness for C3: soft-deleting into a store that already has 3 trashed
    rows leaves exactly 3 trashed. -/
theorem claim3_trash_bound_witness :
    (soft_delete_item 4 "2024-05-04T10:00:00"
      ⟨[⟨1, "2024-01-01", "note", "a", false, none, none, none, some "2024-05-01T10:00:00"⟩,
        ⟨2, "2024-01-02", "note", "b", false, none, none, none, some "2024-05-02T10:00:00"⟩,
        ⟨3, "2024-01-03", "note", "c", false, none, none, none, some "2024-05-03T10:00:00"⟩,
        ⟨4, "2024-01-04", "note", "d", false, none, none, none, none⟩], [], []⟩).items.countP
      (fun i => i.deleted_at.isSome) ≤ 3 :=
  claim3_trash_bound 4 "2024-05-04T10:00:00" _ (by decide)

/-! ### C9: recover_last recovers exactly the most recently trashed item -/

/-- What C9 asserts of a store: on an empty trash `recover_last` returns
    `false` and changes nothing; otherwise it returns `true` and nulls
    `deleted_at` on the single trashed row with the strictly greatest
    timestamp, leaving every other row and the tag tables unchanged. -/
def recoverLastSpec (db : DB) : Prop :=
  ((∀ i ∈ db.items, i.deleted_at = none) → recover_last_deleted db = (false, db)) ∧
  ((∃ i ∈ db.items, i.deleted_at ≠ none) →
    (recover_last_deleted db).1 = true ∧
    ∃ j ∈ db.items, j.deleted_at ≠ none ∧
      (∀ k ∈ db.items, k.deleted_at ≠ none → k ≠ j →
        ∃ tk tj, k.deleted_at = some tk ∧ j.deleted_at = some tj ∧ tk < tj) ∧
      { j with deleted_at := none } ∈ (recover_last_deleted db).2.items ∧
      (∀ k ∈ db.items, k ≠ j → k ∈ (recover_last_deleted db).2.items) ∧
      (recover_last_deleted db).2.tags = db.tags ∧
      (recover_last_deleted db).2.item_tags = db.item_tags)

/-- C9: with unique row ids and distinct trash timestamps (they are
    `datetime.now()` stamps), `recover_last_deleted` behaves as specified:
    `false` and no mutation on an empty trash, else `true` and exactly the
    most recently trashed row is un-trashed. -/
theorem claim9_recover_last (db : DB)
    (hids : (db.items.map Item.id).Nodup)
    (hdist : ∀ a ∈ db.items, ∀ b ∈ db.items, a.deleted_at.isSome = true →
      b.deleted_at.isSome = true → a ≠ b → a.deleted_at ≠ b.deleted_at) :
    recoverLastSpec db := by
  constructor
  · intro hall
    unfold recover_last_deleted
    have hfe : db.items.filter (fun i => i.deleted_at.isSome) = [] := by
      rw [List.filter_eq_nil_iff]
      intro a ha
      rw [hall a ha]
      simp
    rw [hfe]
    rfl
  · rintro ⟨i0, hi0, hdel0⟩
    have hmemf : i0 ∈ db.items.filter (fun i => i.deleted_at.isSome) :=
      List.mem_filter.mpr ⟨hi0, by simpa [Option.isSome_iff_ne_none] using hdel0⟩
    have hsne : sortTrashedDesc (db.items.filter (fun i => i.deleted_at.isSome)) ≠ [] := by
      intro he
      have hm : i0 ∈ sortTrashedDesc (db.items.filter (fun i => i.deleted_at.isSome)) :=
        (List.mem_insertionSort tsGe).mpr hmemf
      rw [he] at hm
      exact absurd hm (List.not_mem_nil _)
    obtain ⟨j, t, hjt⟩ := List.exists_cons_of_ne_nil hsne
    have hjmemf : j ∈ db.items.filter (fun i => i.deleted_at.isSome) := by
      have : j ∈ sortTrashedDesc (db.items.filter (fun i => i.deleted_at.isSome)) := by
        rw [hjt]; exact List.mem_cons_self j t
      exact (List.mem_insertionSort tsGe).mp this
    obtain ⟨hjmem, hjsome⟩ := List.mem_filter.mp hjmemf
    have hjdel : j.deleted_at ≠ none := Option.isSome_iff_ne_none.mp hjsome
    have hsorted : List.Sorted tsGe (j :: t) := by
      rw [← hjt]
      exact List.sorted_insertionSort tsGe _
    unfold recover_last_deleted
    rw [hjt]
    simp only [List.head?_cons]
    refine ⟨by trivial, j, hjmem, hjdel, ?_, ?_, ?_, by trivial, by trivial⟩
    · intro k hk hkdel hkne
      have hkf : k ∈ db.items.filter (fun i => i.deleted_at.isSome) :=
        List.mem_filter.mpr ⟨hk, by simpa [Option.isSome_iff_ne_none] using hkdel⟩
      have hks : k ∈ j :: t := by
        rw [← hjt]
        exact (List.mem_insertionSort tsGe).mpr hkf
      rcases List.mem_cons.mp hks with rfl | hkt
      · exact absurd rfl hkne
      · have hle : tsGe j k := List.rel_of_sorted_cons hsorted k hkt
        obtain ⟨tk, htk⟩ := Option.ne_none_iff_exists'.mp hkdel
        obtain ⟨tj, htj⟩ := Option.ne_none_iff_exists'.mp hjdel
        refine ⟨tk, tj, htk, htj, ?_⟩
        have hne2 : k.deleted_at ≠ j.deleted_at :=
          hdist k hk j hjmem (by simp [htk]) (by simp [htj]) hkne
        have htkj : tk ≠ tj := by
          intro he
          exact hne2 (by rw [htk, htj, he])
        have hle2 : tk ≤ tj := by
          unfold tsGe tsKey at hle
          rw [htk, htj] at hle
          simpa using hle
        exact lt_of_le_of_ne hle2 htkj
    · exact List.mem_map.mpr ⟨j, hjmem, by simp⟩
    · intro k hk hkne
      have hkid : k.id ≠ j.id := by
        intro he
        exact hkne (eq_of_mem_of_id_eq hids hk hjmem he)
      refine List.mem_map.mpr ⟨k, hk, ?_⟩
      simp [hkid]

/-- Witness for C9 at a concrete store with one trashed and one live row. -/
theorem claim9_recover_last_witness :
    recoverLastSpec
      ⟨[⟨1, "2024-01-01", "note", "a", false, none, none, none, some "2024-05-01T10:00:00"⟩,
        ⟨2, "2024-01-02", "note", "b", false, none, none, none, none⟩], [], []⟩ :=
  claim9_recover_last _ (by decide) (by decide)

/-! ### C6: no zero-association tag row survives a completed mutation -/

/-- The tag-GC invariant: every tag row is referenced by some association. -/
def noOrphans (db : DB) : Prop := ∀ t ∈ db.tags, ∃ p ∈ db.item_tags, p.2 = t.id

/-- `_cleanup_orphaned_tags` establishes the invariant outright. -/
theorem noOrphans_cleanup (db : DB) : noOrphans (cleanupOrphanedTags db) := by
  intro t ht
  obtain ⟨htm, hany⟩ := List.mem_filter.mp ht
  rw [List.any_eq_true] at hany
  obtain ⟨p, hp, hbeq⟩ := hany
  exact ⟨p, hp, by simpa using hbeq⟩

/-- C6: `delete_item`, `empty_trash` and a completed `update_item_tags` end
    in the GC and leave no orphaned tag; `soft_delete_item` runs the GC
    whenever it purges and otherwise touches no association, so it preserves
    the invariant; and `update_item_tags id []` removes every association of
    the item while leaving no zero-association tag row. -/
theorem claim6_no_orphan_tags (db : DB) (item_id : Nat) (now : String)
    (names : List String) (choose : String → String) (h : noOrphans db) :
    noOrphans (delete_item item_id db) ∧
    noOrphans (empty_trash db) ∧
    noOrphans (soft_delete_item item_id now db) ∧
    (∀ db', update_item_tags item_id names choose db = .ok db' → noOrphans db') ∧
    (∃ db', update_item_tags item_id [] choose db = .ok db' ∧
      (∀ p ∈ db'.item_tags, p.1 ≠ item_id) ∧ noOrphans db') := by
  refine ⟨noOrphans_cleanup _, noOrphans_cleanup _, ?_, ?_, ?_⟩
  · unfold soft_delete_item
    dsimp only
    split
    · exact noOrphans_cleanup _
    · exact h
  · intro db' heq
    unfold update_item_tags at heq
    dsimp only at heq
    split at heq
    · cases heq
    · injection heq with heq'
      rw [← heq']
      exact noOrphans_cleanup _
  · refine ⟨_, rfl, ?_, noOrphans_cleanup _⟩
    intro p hp
    have := (List.mem_filter.mp hp).2
    simpa using this

/-- Witness for C6 at a concrete store holding one tagged note. -/
theorem claim6_no_orphan_tags_witness :
    (noOrphans (delete_item 1
      ⟨[⟨1, "2024-01-01", "note", "a", false, none, none, none, none⟩],
       [⟨7, "work", "red"⟩], [(1, 7)]⟩) ∧
     noOrphans (empty_trash
      ⟨[⟨1, "2024-01-01", "note", "a", false, none, none, none, none⟩],
       [⟨7, "work", "red"⟩], [(1, 7)]⟩) ∧
     noOrphans (soft_delete_item 1 "2024-05-01T10:00:00"
      ⟨[⟨1, "2024-01-01", "note", "a", false, none, none, none, none⟩],
       [⟨7, "work", "red"⟩], [(1, 7)]⟩) ∧
     (∀ db', update_item_tags 1 ["x"] (fun _ => "red")
        ⟨[⟨1, "2024-01-01", "note", "a", false, none, none, none, none⟩],
         [⟨7, "work", "red"⟩], [(1, 7)]⟩ = .ok db' → noOrphans db') ∧
     (∃ db', update_item_tags 1 [] (fun _ => "red")
        ⟨[⟨1, "2024-01-01", "note", "a", false, none, none, none, none⟩],
         [⟨7, "work", "red"⟩], [(1, 7)]⟩ = .ok db' ∧
        (∀ p ∈ db'.item_tags, p.1 ≠ 1) ∧ noOrphans db')) :=
  claim6_no_orphan_tags _ 1 "2024-05-01T10:00:00" ["x"] (fun _ => "red")
    (by intro t ht; rcases List.mem_singleton.mp ht with rfl; exact ⟨(1, 7), by simp, rfl⟩)

/-! ### C2: double toggle does not always restore the row -/

/-- The combined effect of two `toggle_todo_status` calls on a store whose
    row `i` has the toggled id: the row ends done with the second action
    date if it started done, else not-done with null finish date. -/
theorem toggle_twice_items (db : DB) (n : Nat) (a1 a2 : String) {i : Item}
    (hmem : i ∈ db.items) (hid : i.id = n) (hnd : (db.items.map Item.id).Nodup) :
    (toggle_todo_status n a2 (toggle_todo_status n a1 db)).items
      = db.items.map (fun j => if j.id == n then
          (if i.is_done = true then { j with is_done := true, finish_date := some a2 }
           else { j with is_done := false, finish_date := none }) else j) := by
  subst hid
  have hfind1 : db.items.find? (fun j => j.id == i.id) = some i := find?_id_of_mem hnd hmem
  by_cases hdone : i.is_done = true
  · have e1 : toggle_todo_status i.id a1 db = { db with items := (List.map
        (fun j => if j.id == i.id then { j with is_done := false, finish_date := none } else j)
        db.items) } := by
      unfold toggle_todo_status
      rw [hfind1]
      dsimp only
      rw [if_pos hdone]
    have hfind2 : (List.map
        (fun j => if j.id == i.id then { j with is_done := false, finish_date := none } else j)
        db.items).find? (fun j => j.id == i.id)
        = some { i with is_done := false, finish_date := none } := by
      rw [find?_map_update db.items i.id
        (fun j => { j with is_done := false, finish_date := none }) (fun j => rfl), hfind1]
      simp
    have e2 : toggle_todo_status i.id a2 { db with items := (List.map
        (fun j => if j.id == i.id then { j with is_done := false, finish_date := none } else j)
        db.items) } = { db with items := (List.map
          (fun j => if j.id == i.id then { j with is_done := true, finish_date := some a2 } else j)
          (List.map
            (fun j => if j.id == i.id then { j with is_done := false, finish_date := none } else j)
            db.items)) } := by
      unfold toggle_todo_status
      dsimp only
      rw [hfind2]
      dsimp only
      rw [if_neg (by simp)]
    rw [e1, e2, List.map_map]
    apply List.map_congr_left
    intro j hj
    simp only [Function.comp_apply]
    by_cases hjn : (j.id == i.id) = true
    · have hj_eq : j = i := eq_of_mem_of_id_eq hnd hj hmem (by simpa using hjn)
      subst hj_eq
      simp [hjn, hdone]
    · simp only [Bool.not_eq_true] at hjn
      simp [hjn]
  · have e1 : toggle_todo_status i.id a1 db = { db with items := (List.map
        (fun j => if j.id == i.id then { j with is_done := true, finish_date := some a1 } else j)
        db.items) } := by
      unfold toggle_todo_status
      rw [hfind1]
      dsimp only
      rw [if_neg hdone]
    have hfind2 : (List.map
        (fun j => if j.id == i.id then { j with is_done := true, finish_date := some a1 } else j)
        db.items).find? (fun j => j.id == i.id)
        = some { i with is_done := true, finish_date := some a1 } := by
      rw [find?_map_update db.items i.id
        (fun j => { j with is_done := true, finish_date := some a1 }) (fun j => rfl), hfind1]
      simp
    have e2 : toggle_todo_status i.id a2 { db with items := (List.map
        (fun j => if j.id == i.id then { j with is_done := true, finish_date := some a1 } else j)
        db.items) } = { db with items := (List.map
          (fun j => if j.id == i.id then { j with is_done := false, finish_date := none } else j)
          (List.map
            (fun j => if j.id == i.id then { j with is_done := true, finish_date := some a1 } else j)
            db.items)) } := by
      unfold toggle_todo_status
      dsimp only
      rw [hfind2]
      dsimp only
      rw [if_pos (by simp)]
    rw [e1, e2, List.map_map]
    apply List.map_congr_left
    intro j hj
    simp only [Function.comp_apply]
    by_cases hjn : (j.id == i.id) = true
    · have hj_eq : j = i := eq_of_mem_of_id_eq hnd hj hmem (by simpa using hjn)
      subst hj_eq
      simp [hjn, hdone]
    · simp only [Bool.not_eq_true] at hjn
      simp [hjn]

/-- A todo that is already done with finish date 2024-01-10. -/
def c2Item : Item := ⟨1, "2024-01-01", "todo", "t", true, some "2024-01-10", none, none, none⟩

/-- A store whose only item is that done todo. -/
def c2DB : DB := ⟨[c2Item], [], []⟩

/-- C2 counterexample: toggling the done todo twice (action dates
    2024-01-15 then 2024-02-02) returns `is_done` to `true` but replaces
    `finish_date` with the second action date, so the row does not return
    to its original state. -/
theorem claim2_counterexample :
    c2DB.items = [c2Item] ∧ c2Item.is_done = true ∧
    c2Item.finish_date = some "2024-01-10" ∧
    (toggle_todo_status 1 "2024-02-02" (toggle_todo_status 1 "2024-01-15" c2DB)).items
      = [{ c2Item with finish_date := some "2024-02-02" }] ∧
    ({ c2Item with finish_date := some "2024-02-02" } : Item) ≠ c2Item :=
  ⟨rfl, rfl, rfl, by decide, by decide⟩

/-- C2 amended: a double toggle always restores `is_done` (and all fields
    other than `finish_date`); it restores the whole row exactly when the
    todo started not-done with null `finish_date`, or started done with
    `finish_date` equal to the second action date — otherwise `finish_date`
    ends as `none` (started not-done) or as the second action date
    (started done).  Rows with other ids are untouched. -/
theorem claim2_amended (db : DB) (item_id : Nat) (a1 a2 : String) (i : Item)
    (hmem : i ∈ db.items) (hid : i.id = item_id)
    (hnd : (db.items.map Item.id).Nodup) :
    ∃ i', i' ∈ (toggle_todo_status item_id a2 (toggle_todo_status item_id a1 db)).items ∧
      i'.id = i.id ∧ i'.is_done = i.is_done ∧ i'.date = i.date ∧
      i'.type = i.type ∧ i'.content = i.content ∧
      (i.is_done = false → i'.finish_date = none) ∧
      (i.is_done = true → i'.finish_date = some a2) ∧
      ((i.is_done = false ∧ i.finish_date = none) ∨
        (i.is_done = true ∧ i.finish_date = some a2) → i' = i) ∧
      (∀ k ∈ db.items, k.id ≠ item_id →
        k ∈ (toggle_todo_status item_id a2 (toggle_todo_status item_id a1 db)).items) := by
  have hitems := toggle_twice_items db item_id a1 a2 hmem hid hnd
  by_cases hdone : i.is_done = true
  · refine ⟨{ i with is_done := true, finish_date := some a2 }, ?_, rfl, hdone.symm, rfl, rfl,
      rfl, ?_, ?_, ?_, ?_⟩
    · rw [hitems]
      refine List.mem_map.mpr ⟨i, hmem, ?_⟩
      simp [hid, hdone]
    · intro hfalse
      rw [hdone] at hfalse
      cases hfalse
    · intro _
      rfl
    · rintro (⟨hfalse, _⟩ | ⟨_, hfin⟩)
      · rw [hdone] at hfalse
        cases hfalse
      · rw [← hfin, ← hdone]
    · intro k hk hkid
      rw [hitems]
      refine List.mem_map.mpr ⟨k, hk, ?_⟩
      simp [hkid]
  · have hdone' : i.is_done = false := by simpa using hdone
    refine ⟨{ i with is_done := false, finish_date := none }, ?_, rfl, hdone'.symm, rfl, rfl,
      rfl, ?_, ?_, ?_, ?_⟩
    · rw [hitems]
      refine List.mem_map.mpr ⟨i, hmem, ?_⟩
      simp [hid, hdone']
    · intro _
      rfl
    · intro htrue
      rw [hdone'] at htrue
      cases htrue
    · rintro (⟨_, hfin⟩ | ⟨htrue, _⟩)
      · rw [← hfin, ← hdone']
      · rw [hdone'] at htrue
        cases htrue
    · intro k hk hkid
      rw [hitems]
      refine List.mem_map.mpr ⟨k, hk, ?_⟩
      simp [hkid]

/-- Witness for the amended C2 at the concrete done todo. -/
theorem claim2_amended_witness :
    ∃ i', i' ∈ (toggle_todo_status 1 "2024-02-02"
        (toggle_todo_status 1 "2024-01-15" c2DB)).items ∧
      i'.id = c2Item.id ∧ i'.is_done = c2Item.is_done ∧ i'.date = c2Item.date ∧
      i'.type = c2Item.type ∧ i'.content = c2Item.content ∧
      (c2Item.is_done = false → i'.finish_date = none) ∧
      (c2Item.is_done = true → i'.finish_date = some "2024-02-02") ∧
      ((c2Item.is_done = false ∧ c2Item.finish_date = none) ∨
        (c2Item.is_done = true ∧ c2Item.finish_date = some "2024-02-02") → i' = c2Item) ∧
      (∀ k ∈ c2DB.items, k.id ≠ 1 →
        k ∈ (toggle_todo_status 1 "2024-02-02"
          (toggle_todo_status 1 "2024-01-15" c2DB)).items) :=
  claim2_amended c2DB 1 "2024-01-15" "2024-02-02" c2Item (by decide) rfl (by decide)

/-! ### C8: marked days always lie within the month -/

theorem ymdLeB_refl (a : Ymd) : ymdLeB a a = true := by
  rw [ymdLeB_iff]
  omega

theorem ymdLeB_trans {a b c : Ymd} (h1 : ymdLeB a b = true) (h2 : ymdLeB b c = true) :
    ymdLeB a c = true := by
  rw [ymdLeB_iff] at h1 h2 ⊢
  omega

/-- Days walked between two dates clamped inside a month are valid days of
    that month. -/
theorem walk_days_in_range {year month d : Nat} {start e : Ymd}
    (hms : ymdLeB (monthStart year month) start = true)
    (hme : ymdLeB e (monthEnd year month) = true)
    (hse : ymdLeB start e = true)
    (hd : d ∈ List.range' start.day (e.day + 1 - start.day)) :
    1 ≤ d ∧ d ≤ daysInMonth year month := by
  rw [List.mem_range'_1] at hd
  have h1 := ymd_in_month hms (ymdLeB_trans hse hme)
  have h2 := ymd_in_month (ymdLeB_trans hms hse) hme
  have hsd : start.day ≤ e.day := by
    rw [ymdLeB_iff] at hse
    omega
  omega

/-- Every day contributed by one todo row lies within the month. -/
theorem todoDays_mem_range {year month d : Nat} {i : Item}
    (hd : d ∈ todoDays year month i) : 1 ≤ d ∧ d ≤ daysInMonth year month := by
  unfold todoDays at hd
  split at hd
  · cases hd
  · next cd hp =>
    split at hd
    · cases hd
    · next hnotafter =>
      dsimp only at hd
      split at hd
      · cases hd
      · next fdOpt hfd =>
        split at hd
        · cases hd
        · next hnotbefore =>
          split at hd
          · next hse =>
            refine walk_days_in_range (le_ymdMax_right cd (monthStart year month)) ?_ hse hd
            cases fdOpt with
            | none => exact ymdLeB_refl (monthEnd year month)
            | some fd => exact ymdMin_le_right fd (monthEnd year month)
          · cases hd

/-- C8: for a real calendar year and month, `get_marked_days` only returns
    days in `{1, …, days_in_month}`; rows with malformed dates are skipped
    by the embedded parser rather than contributing. -/
theorem claim8_marked_days_in_range (year month : Nat) (db : DB)
    (hy1 : 1000 ≤ year) (hy2 : year ≤ 9999) (hm1 : 1 ≤ month) (hm2 : month ≤ 12) :
    ∀ d ∈ get_marked_days year month db, 1 ≤ d ∧ d ≤ daysInMonth year month := by
  intro d hd
  unfold get_marked_days at hd
  rcases List.mem_append.mp hd with hd | hd
  · rcases List.mem_filterMap.mp hd with ⟨i, hif, hmap⟩
    obtain ⟨hmem, hcond⟩ := List.mem_filter.mp hif
    rw [Bool.and_eq_true] at hcond
    obtain ⟨_, hlike⟩ := hcond
    cases hp : parseDate i.date with
    | none => rw [hp] at hmap; cases hmap
    | some t =>
      rw [hp] at hmap
      obtain rfl : t.day = d := by simpa using hmap
      obtain ⟨_, hy1', hy2', hm1', hm2', hd1, hdle⟩ := parseDate_inv hp
      obtain ⟨hyy, hmm⟩ := (likeStarts_searchPattern hp hy2 (by omega)).mp hlike
      rw [← hyy, ← hmm]
      exact ⟨hd1, hdle⟩
  · rcases List.mem_flatMap.mp hd with ⟨i, _, hdays⟩
    exact todoDays_mem_range hdays

/-- Witness for C8 on a concrete store (a note, a malformed date and an
    open todo) in February 2024, evaluated at the note's marked day 10. -/
theorem claim8_marked_days_in_range_witness :
    1 ≤ 10 ∧ 10 ≤ daysInMonth 2024 2 :=
  claim8_marked_days_in_range 2024 2
    ⟨[⟨1, "2024-02-30", "note", "bad", false, none, none, none, none⟩,
      ⟨2, "2024-02-10", "note", "ok", false, none, none, none, none⟩,
      ⟨3, "2024-01-05", "todo", "t", false, none, none, none, none⟩], [], []⟩
    (by decide) (by decide) (by decide) (by decide) 10 (by decide)

/-! ### C5: year_stats todo sums -/

theorem bump_length (l : List Nat) (i : Nat) : (bump l i).length = l.length :=
  List.length_set l i _

theorem bump_sum (l : List Nat) (i : Nat) (h : i < l.length) :
    (bump l i).sum = l.sum + 1 := by
  induction l generalizing i with
  | nil => cases h
  | cons a t ih =>
    cases i with
    | zero => simp [bump, List.getD]; omega
    | succ k =>
      have hk : k < t.length := by simpa using h
      have : bump (a :: t) (k + 1) = a :: bump t k := by
        simp [bump, List.getD]
      rw [this, List.sum_cons, List.sum_cons, ih k hk]
      omega

/-- What one row of the first `get_year_stats` query does to the
    `todo_created` and `todo_done` buckets. -/
theorem yearStatsStep_effect (s : YearStats) (r : Item) :
    (yearStatsStep s r).todo_created.length = s.todo_created.length ∧
    (yearStatsStep s r).todo_done = s.todo_done ∧
    (s.todo_created.length = 12 →
      (yearStatsStep s r).todo_created.sum = s.todo_created.sum +
        (if r.type == "todo" && (parseDate r.date).isSome then 1 else 0)) := by
  cases hp : parseDate r.date with
  | none => simp [yearStatsStep, hp]
  | some d =>
    obtain ⟨_, _, _, hm1, hm2, _, _⟩ := parseDate_inv hp
    by_cases h1 : r.type = "diary"
    · have hne : (r.type == "todo") = false := by simp [h1]
      simp [yearStatsStep, hp, h1, hne]
    · by_cases h2 : r.type = "note"
      · have hne : (r.type == "todo") = false := by simp [h2]
        simp [yearStatsStep, hp, h1, h2, hne]
      · by_cases h3 : r.type = "file"
        · have hne : (r.type == "todo") = false := by simp [h3]
          simp [yearStatsStep, hp, h1, h2, h3, hne]
        · by_cases h4 : r.type = "todo"
          · refine ⟨?_, ?_, ?_⟩
            · simp [yearStatsStep, hp, h1, h2, h3, h4, bump_length]
            · simp [yearStatsStep, hp, h1, h2, h3, h4]
            · intro hlen
              have hidx : d.month - 1 < s.todo_created.length := by omega
              simp [yearStatsStep, hp, h1, h2, h3, h4, bump_sum _ _ hidx]
          · have hne : (r.type == "todo") = false := by simp [h4]
            simp [yearStatsStep, hp, h1, h2, h3, h4, hne]

/-- What one row of the second `get_year_stats` query does. -/
theorem yearDoneStep_effect (s : YearStats) (f : String) :
    (yearDoneStep s f).todo_created = s.todo_created ∧
    (yearDoneStep s f).todo_done.length = s.todo_done.length ∧
    (s.todo_done.length = 12 →
      (yearDoneStep s f).todo_done.sum = s.todo_done.sum +
        (if (parseDate f).isSome then 1 else 0)) := by
  cases hp : parseDate f with
  | none => simp [yearDoneStep, hp]
  | some d =>
    unfold yearDoneStep
    rw [hp]
    obtain ⟨_, _, _, hm1, hm2, _, _⟩ := parseDate_inv hp
    refine ⟨rfl, bump_length _ _, ?_⟩
    intro hlen
    have hidx : d.month - 1 < s.todo_done.length := by omega
    rw [bump_sum _ _ hidx]
    simp

/-- Folding the first query over its rows adds one to the `todo_created`
    total per todo row with a parsable date, and never touches `todo_done`. -/
theorem foldl_yearStatsStep (rows : List Item) (s : YearStats)
    (hlen : s.todo_created.length = 12) :
    (rows.foldl yearStatsStep s).todo_created.sum
      = s.todo_created.sum + rows.countP (fun i => i.type == "todo" && (parseDate i.date).isSome) ∧
    (rows.foldl yearStatsStep s).todo_done = s.todo_done := by
  induction rows generalizing s with
  | nil => simp
  | cons r rest ih =>
    obtain ⟨hl, hdone, hsum⟩ := yearStatsStep_effect s r
    have hlen' : (yearStatsStep s r).todo_created.length = 12 := by rw [hl, hlen]
    obtain ⟨ihsum, ihdone⟩ := ih (yearStatsStep s r) hlen'
    refine ⟨?_, by rw [List.foldl_cons, ihdone, hdone]⟩
    rw [List.foldl_cons, ihsum, hsum hlen, List.countP_cons]
    split_ifs <;> omega

/-- Folding the second query adds one to the `todo_done` total per row with
    a parsable finish date, and never touches `todo_created`. -/
theorem foldl_yearDoneStep (rows : List Item) (s : YearStats)
    (hlen : s.todo_done.length = 12) :
    ((rows.foldl (fun acc i => yearDoneStep acc (i.finish_date.getD "")) s).todo_done.sum
      = s.todo_done.sum + rows.countP (fun i => (parseDate (i.finish_date.getD "")).isSome)) ∧
    (rows.foldl (fun acc i => yearDoneStep acc (i.finish_date.getD "")) s).todo_created
      = s.todo_created := by
  induction rows generalizing s with
  | nil => simp
  | cons r rest ih =>
    obtain ⟨hcr, hl, hsum⟩ := yearDoneStep_effect s (r.finish_date.getD "")
    have hlen' : (yearDoneStep s (r.finish_date.getD "")).todo_done.length = 12 := by
      rw [hl, hlen]
    obtain ⟨ihsum, ihcr⟩ := ih (yearDoneStep s (r.finish_date.getD "")) hlen'
    refine ⟨?_, by rw [List.foldl_cons, ihcr, hcr]⟩
    rw [List.foldl_cons, ihsum, hsum hlen, List.countP_cons]
    split_ifs <;> omega

/-- The claim's literal reading: every todo row (trashed or not) whose
    `date` parses into year `Y`. -/
def todoCreatedAll (year : Nat) (db : DB) : Nat :=
  db.items.countP (fun i => i.type == "todo" &&
    (match parseDate i.date with | some d => d.year == year | none => false))

/-- The non-trashed todos whose `date` parses into year `Y` — what the code
    actually counts. -/
def todoCreatedLive (year : Nat) (db : DB) : Nat :=
  db.items.countP (fun i => i.type == "todo" && i.deleted_at.isNone &&
    (match parseDate i.date with | some d => d.year == year | none => false))

/-- The non-trashed done todos whose `finish_date` parses into year `Y`. -/
def todoDoneLive (year : Nat) (db : DB) : Nat :=
  db.items.countP (fun i => i.type == "todo" && i.is_done && i.deleted_at.isNone &&
    (match i.finish_date with
     | some f => (match parseDate f with | some d => d.year == year | none => false)
     | none => false))

/-- A trashed todo created 2024-03-10. -/
def c5Item : Item :=
  ⟨1, "2024-03-10", "todo", "t", false, none, none, none, some "2024-04-01T00:00:00"⟩

/-- A store whose only item is the trashed todo. -/
def c5DB : DB := ⟨[c5Item], [], []⟩

/-- C5 counterexample: the store has exactly one todo and its date lies in
    2024, yet `get_year_stats 2024` counts zero created todos — the query
    filters on `deleted_at IS NULL`, which the claim omits. -/
theorem claim5_counterexample :
    c5DB.items = [c5Item] ∧ c5Item.type = "todo" ∧
    parseDate c5Item.date = some ⟨2024, 3, 10⟩ ∧
    todoCreatedAll 2024 c5DB = 1 ∧
    (get_year_stats 2024 c5DB).todo_created.sum = 0 :=
  ⟨rfl, rfl, by decide, by decide, by decide⟩

/-- C5 amended: for a real calendar year the `todo_created` entries sum to
    the number of NON-TRASHED todos whose `date` lies in that year, and the
    `todo_done` entries to the number of non-trashed done todos whose
    `finish_date` lies in that year (regardless of creation year). -/
theorem claim5_amended (year : Nat) (db : DB) (hy1 : 1000 ≤ year) (hy2 : year ≤ 9999) :
    (get_year_stats year db).todo_created.sum = todoCreatedLive year db ∧
    (get_year_stats year db).todo_done.sum = todoDoneLive year db := by
  unfold get_year_stats
  dsimp only
  have hlen1 : (List.replicate 12 0).length = 12 := List.length_replicate 12 0
  obtain ⟨hsum1, hdone1⟩ := foldl_yearStatsStep
    (db.items.filter (fun i => likeStarts (yearPattern year) i.date && i.deleted_at.isNone))
    ⟨List.replicate 12 0, List.replicate 12 0, List.replicate 12 0,
     List.replicate 12 0, List.replicate 12 0, 0, 0⟩ hlen1
  obtain ⟨hsum2, hcreated2⟩ := foldl_yearDoneStep
    (db.items.filter (fun i => i.type == "todo" && i.is_done
      && (match i.finish_date with
          | some f => likeStarts (yearPattern year) f
          | none => false)
      && i.deleted_at.isNone))
    ((db.items.filter (fun i => likeStarts (yearPattern year) i.date
        && i.deleted_at.isNone)).foldl yearStatsStep
      ⟨List.replicate 12 0, List.replicate 12 0, List.replicate 12 0,
       List.replicate 12 0, List.replicate 12 0, 0, 0⟩)
    (by rw [hdone1]; exact hlen1)
  constructor
  · rw [hcreated2, hsum1, List.countP_filter]
    simp only [List.sum_replicate, smul_eq_mul, Nat.mul_zero, Nat.zero_add]
    unfold todoCreatedLive
    apply List.countP_congr
    intro i _
    cases hp : parseDate i.date with
    | none => simp [hp]
    | some t =>
      have hlike := likeStarts_yearPattern hp hy2
      by_cases hy : t.year = year
      · have h1 : likeStarts (yearPattern year) i.date = true := hlike.mpr hy
        simp [hp, h1, hy]
      · have h1 : likeStarts (yearPattern year) i.date = false :=
          Bool.eq_false_iff.mpr (fun hc => hy (hlike.mp hc))
        have h2 : (t.year == year) = false := by simp [hy]
        simp [hp, h1, h2]
  · rw [hsum2, hdone1, List.countP_filter]
    simp only [List.sum_replicate, smul_eq_mul, Nat.mul_zero, Nat.zero_add]
    unfold todoDoneLive
    apply List.countP_congr
    intro i _
    cases hf : i.finish_date with
    | none => simp [hf]
    | some f =>
      cases hp : parseDate f with
      | none => simp [hf, hp]
      | some t =>
        have hlike := likeStarts_yearPattern hp hy2
        by_cases hy : t.year = year
        · have h1 : likeStarts (yearPattern year) f = true := hlike.mpr hy
          simp [hf, hp, h1, hy]
        · have h1 : likeStarts (yearPattern year) f = false :=
            Bool.eq_false_iff.mpr (fun hc => hy (hlike.mp hc))
          have h2 : (t.year == year) = false := by simp [hy]
          simp [hf, hp, h1, h2]

/-- Witness for the amended C5 at a small mixed store. -/
theorem claim5_amended_witness :
    (get_year_stats 2024 ⟨[c5Item,
        ⟨2, "2024-05-01", "todo", "u", true, some "2024-06-02", none, none, none⟩,
        ⟨3, "2023-12-30", "todo", "v", true, some "2024-01-03", none, none, none⟩], [], []⟩).todo_created.sum
      = todoCreatedLive 2024 ⟨[c5Item,
        ⟨2, "2024-05-01", "todo", "u", true, some "2024-06-02", none, none, none⟩,
        ⟨3, "2023-12-30", "todo", "v", true, some "2024-01-03", none, none, none⟩], [], []⟩ ∧
    (get_year_stats 2024 ⟨[c5Item,
        ⟨2, "2024-05-01", "todo", "u", true, some "2024-06-02", none, none, none⟩,
        ⟨3, "2023-12-30", "todo", "v", true, some "2024-01-03", none, none, none⟩], [], []⟩).todo_done.sum
      = todoDoneLive 2024 ⟨[c5Item,
        ⟨2, "2024-05-01", "todo", "u", true, some "2024-06-02", none, none, none⟩,
        ⟨3, "2023-12-30", "todo", "v", true, some "2024-01-03", none, none, none⟩], [], []⟩ :=
  claim5_amended 2024 _ (by decide) (by decide)
